import Mathlib

/-!
Shallow embedding of `pqe369_quantum_circuits.py` (class
`PQE369QuantumCircuitGenerator`), a generator of static quantum-circuit
descriptions.  Python byte strings are embedded as `List Nat` (entries of
real inputs are `< 256`); Python dict circuit specifications become the
`Circuit` structure with optional builder-specific metadata fields; the
unseeded `np.random` source is made explicit (fixed-structure builders take
the drawn seed as a parameter, the batch function threads an explicit
random-byte stream).  Every floating-point angle computed by the script is
an exact rational multiple of π, so the `angle` field stores the exact
rational coefficient `q` with the circuit angle being `q * π`.  Fallible
calls return `Except Err _`, where `Err` classifies the Python exception
raised on the corresponding path.
-/

namespace PQE369

/-- Failure conditions of the embedded Python code.  `zeroDivision` is
Python's `ZeroDivisionError` (`i % len(x)` with `len(x) = 0`),
`valueError` is Python's `ValueError` (`pow(base, e, 0)`),
`attributeError` is Python's `AttributeError` (a call to a method that does
not exist anywhere in the repository).  `invalidInput` is the *InvalidInput*
condition described by the specification; it is modelled from the spec and
is never produced by the code, which performs no input validation. -/
inductive Err where
| zeroDivision
| valueError
| attributeError
| invalidInput
deriving DecidableEq, Repr

/-- A gate record `{gate, qubits, angle}`.  The `angle` field stores the
exact rational coefficient of π (the Python code stores the floating-point
value `angle * π`). -/
structure Gate where
  gate : String
  qubits : List Nat
  angle : Option ℚ
deriving DecidableEq, Repr

/-- Hadamard gate on qubit `i` (`{"gate": "h", "qubits": [i]}`). -/
def hG (i : Nat) : Gate := ⟨r"h", [i], none⟩

/-- Controlled-NOT gate (`{"gate": "cx", "qubits": [a, b]}`). -/
def cxG (a b : Nat) : Gate := ⟨r"cx", [a, b], none⟩

/-- Toffoli gate (`{"gate": "ccx", "qubits": [a, b, c]}`). -/
def ccxG (a b c : Nat) : Gate := ⟨r"ccx", [a, b, c], none⟩

/-- Z-rotation by `q * π` radians on qubit `i`. -/
def rzG (i : Nat) (q : ℚ) : Gate := ⟨r"rz", [i], some q⟩

/-- X-rotation by `q * π` radians on qubit `i`. -/
def rxG (i : Nat) (q : ℚ) : Gate := ⟨r"rx", [i], some q⟩

/-- Y-rotation by `q * π` radians on qubit `i`. -/
def ryG (i : Nat) (q : ℚ) : Gate := ⟨r"ry", [i], some q⟩

/-- Controlled-phase gate by `q * π` radians. -/
def cpG (a b : Nat) (q : ℚ) : Gate := ⟨r"cp", [a, b], some q⟩

/-- Controlled-Z-rotation gate by `q * π` radians. -/
def crzG (a b : Nat) (q : ℚ) : Gate := ⟨r"crz", [a, b], some q⟩

/-- Swap gate (`{"gate": "swap", "qubits": [a, b]}`). -/
def swapG (a b : Nat) : Gate := ⟨r"swap", [a, b], none⟩

/-- Measurement of qubit `i` (`{"gate": "measure", "qubits": [i]}`). -/
def measureG (i : Nat) : Gate := ⟨r"measure", [i], none⟩

/-- Circuit description record.  Fields present on every builder come
first; builder-specific metadata keys of the Python dicts are optional
fields. -/
structure Circuit where
  gates : List Gate
  num_qubits : Nat
  description : String
  seed : Nat
  ciphertext_hash : Option String := none
  hardened_ciphertext_hash : Option String := none
  combined_hash : Option String := none
  target_number : Option Nat := none
  base : Option Nat := none
  algorithm_type : Option String := none
  optimization_level : Option String := none
  shots_recommended : Option Nat := none
  improvements : List String := []
  execution_priority : Option Nat := none
  estimated_success_rate : Option ℚ := none
  test_type : Option String := none
  batch_id : Option Nat := none
  batch_total : Option Nat := none
  test_generation : Option String := none
deriving DecidableEq, Repr

/-! SHA-256 (`hashlib.sha256(...).hexdigest()`), over byte lists, with
32-bit words as `Nat` reduced modulo `2 ^ 32`. -/

/-- Right rotation of a 32-bit word. -/
def rotr (n x : Nat) : Nat := (x >>> n) ||| ((x <<< (32 - n)) % 2 ^ 32)

/-- SHA-256 big sigma 0. -/
def bigSigma0 (x : Nat) : Nat := rotr 2 x ^^^ rotr 13 x ^^^ rotr 22 x

/-- SHA-256 big sigma 1. -/
def bigSigma1 (x : Nat) : Nat := rotr 6 x ^^^ rotr 11 x ^^^ rotr 25 x

/-- SHA-256 small sigma 0. -/
def smallSigma0 (x : Nat) : Nat := rotr 7 x ^^^ rotr 18 x ^^^ (x >>> 3)

/-- SHA-256 small sigma 1. -/
def smallSigma1 (x : Nat) : Nat := rotr 17 x ^^^ rotr 19 x ^^^ (x >>> 10)

/-- SHA-256 choice function `Ch(x,y,z) = (x AND y) XOR (NOT x AND z)`. -/
def chooseF (x y z : Nat) : Nat := (x &&& y) ^^^ ((x ^^^ 0xFFFFFFFF) &&& z)

/-- SHA-256 majority function. -/
def majF (x y z : Nat) : Nat := (x &&& y) ^^^ (x &&& z) ^^^ (y &&& z)

/-- SHA-256 round constants. -/
def K256 : Array Nat := #[
  0x428A2F98, 0x71374491, 0xB5C0FBCF, 0xE9B5DBA5, 0x3956C25B, 0x59F111F1, 0x923F82A4, 0xAB1C5ED5,
  0xD807AA98, 0x12835B01, 0x243185BE, 0x550C7DC3, 0x72BE5D74, 0x80DEB1FE, 0x9BDC06A7, 0xC19BF174,
  0xE49B69C1, 0xEFBE4786, 0x0FC19DC6, 0x240CA1CC, 0x2DE92C6F, 0x4A7484AA, 0x5CB0A9DC, 0x76F988DA,
  0x983E5152, 0xA831C66D, 0xB00327C8, 0xBF597FC7, 0xC6E00BF3, 0xD5A79147, 0x06CA6351, 0x14292967,
  0x27B70A85, 0x2E1B2138, 0x4D2C6DFC, 0x53380D13, 0x650A7354, 0x766A0ABB, 0x81C2C92E, 0x92722C85,
  0xA2BFE8A1, 0xA81A664B, 0xC24B8B70, 0xC76C51A3, 0xD192E819, 0xD6990624, 0xF40E3585, 0x106AA070,
  0x19A4C116, 0x1E376C08, 0x2748774C, 0x34B0BCB5, 0x391C0CB3, 0x4ED8AA4A, 0x5B9CCA4F, 0x682E6FF3,
  0x748F82EE, 0x78A5636F, 0x84C87814, 0x8CC70208, 0x90BEFFFA, 0xA4506CEB, 0xBEF9A3F7, 0xC67178F2]

/-- SHA-256 initial hash state. -/
def H0 : List Nat :=
  [0x6A09E667, 0xBB67AE85, 0x3C6EF372, 0xA54FF53A, 0x510E527F, 0x9B05688C, 0x1F83D9AB, 0x5BE0CD19]

/-- SHA-256 message padding: append `0x80`, zero bytes up to 56 mod 64,
then the 64-bit big-endian bit length. -/
def sha256pad (msg : List Nat) : List Nat :=
  msg ++ [128] ++ List.replicate ((119 - (msg.length % 64)) % 64) 0
    ++ (List.range 8).map (fun i => ((8 * msg.length) >>> (8 * (7 - i))) % 256)

/-- Group bytes into 32-bit big-endian words. -/
def bytesToWords : List Nat → List Nat
| a :: b :: c :: d :: rest => (((a * 256 + b) * 256 + c) * 256 + d) :: bytesToWords rest
| _ => []

/-- Extend a 16-word block to the 64-word message schedule. -/
def sha256schedule (block : List Nat) : Array Nat :=
  (List.range 48).foldl
    (fun w t =>
      w.push ((smallSigma1 (w.getD (t + 14) 0) + w.getD (t + 9) 0
        + smallSigma0 (w.getD (t + 1) 0) + w.getD t 0) % 2 ^ 32))
    block.toArray

/-- One SHA-256 round on the 8-word working state. -/
def sha256round (k w : Nat) (s : List Nat) : List Nat :=
  match s with
  | [a, b, c, d, e, f, g, hh] =>
    let t1 := (hh + bigSigma1 e + chooseF e f g + k + w) % 2 ^ 32
    let t2 := (bigSigma0 a + majF a b c) % 2 ^ 32
    [(t1 + t2) % 2 ^ 32, a, b, c, (d + t1) % 2 ^ 32, e, f, g]
  | other => other

/-- Compress one 16-word block into the hash state. -/
def sha256compress (hs block : List Nat) : List Nat :=
  let w := sha256schedule block
  let s := (List.range 64).foldl (fun s t => sha256round (K256.getD t 0) (w.getD t 0) s) hs
  (hs.zip s).map (fun p => (p.1 + p.2) % 2 ^ 32)

/-- Fold the compression function over all 16-word blocks (fuel-driven
recursion; the fuel is the word-list length, an upper bound on the block
count). -/
def sha256blocks (hs ws : List Nat) (fuel : Nat) : List Nat :=
  match fuel with
  | 0 => hs
  | fuel + 1 =>
    match ws with
    | [] => hs
    | _ => sha256blocks (sha256compress hs (ws.take 16)) (ws.drop 16) fuel

/-- The eight 32-bit output words of SHA-256 of a byte list. -/
def sha256words (msg : List Nat) : List Nat :=
  let ws := bytesToWords (sha256pad msg)
  sha256blocks H0 ws ws.length

/-- Lowercase hex digit for a value below 16. -/
def hexDigit (n : Nat) : Char :=
  if n < 10 then Char.ofNat (48 + n) else Char.ofNat (87 + n)

/-- Render a 32-bit word as 8 lowercase hex characters. -/
def natToHex32 (n : Nat) : String :=
  String.mk ((List.range 8).map (fun i => hexDigit ((n >>> (4 * (7 - i))) % 16)))

/-- The hex digest of SHA-256 of a byte list (64 lowercase hex chars),
embedding `hashlib.sha256(msg).hexdigest()`. -/
def sha256hex (msg : List Nat) : String :=
  String.join ((sha256words msg).map natToHex32)

/-- Value of a hex character. -/
def hexCharToNat (c : Char) : Nat :=
  if 97 ≤ c.toNat then c.toNat - 87 else c.toNat - 48

/-- Parse a hex string as a big-endian integer, embedding `int(s, 16)`. -/
def hexToNat (s : String) : Nat :=
  s.data.foldl (fun a c => a * 16 + hexCharToNat c) 0

/-- Concatenation of `f 0 ++ f 1 ++ ... ++ f (n-1)`, the shape of the
Python `for i in range(n): gates.append(...)` loops that append more than
one gate per iteration. -/
def concatMap (f : Nat → List Gate) : Nat → List Gate
| 0 => []
| n + 1 => concatMap f n ++ f n

/-! The circuit builders, translated one-for-one from the Python methods.
Each builder's gate-list construction (the sequence of `for` loops
appending gate dicts) is factored into a named `...Gates` function taking
the input data and the qubit count. -/

/-- Gate list built by `generate_randomness_test_circuit`: Hadamard layer,
linear CX chain, per-qubit input-derived `rz` phases, Toffoli plus reverse
CX when at least 3 qubits, final measurements. -/
def randomnessGates (ciphertext_sample : List Nat) (num_qubits : Nat) : List Gate :=
  concatMap (fun i => [hG i]) num_qubits
  ++ concatMap (fun i => [cxG i (i + 1)]) (num_qubits - 1)
  ++ concatMap (fun i =>
      [rzG i ((ciphertext_sample.getD (i % ciphertext_sample.length) 0 : ℚ) / 255 * 2)])
      num_qubits
  ++ (if 3 ≤ num_qubits then [ccxG 0 1 2, cxG 2 0] else [])
  ++ concatMap (fun i => [measureG i]) num_qubits

/-- Embedding of `generate_randomness_test_circuit(ciphertext_sample)`.
With an empty input the Python expression
`ciphertext_sample[i % len(ciphertext_sample)]` raises `ZeroDivisionError`
(no gate list is returned), embedded as the `Err.zeroDivision` branch. -/
def generate_randomness_test_circuit (ciphertext_sample : List Nat) : Except Err Circuit :=
  let ciphertext_hash := sha256hex ciphertext_sample
  let circuit_seed := hexToNat (ciphertext_hash.take 8)
  let num_qubits := min 5 (max 2 (ciphertext_sample.length % 6))
  if ciphertext_sample.length = 0 then
    .error .zeroDivision
  else
    .ok
      { gates := randomnessGates ciphertext_sample num_qubits
        num_qubits := num_qubits
        description := r"PQE-369 Enhanced Randomness Test Circuit"
        seed := circuit_seed
        ciphertext_hash := some (ciphertext_hash.take 16)
        improvements := [r"phase_rotations", r"toffoli_entanglement", r"reverse_operations"] }

/-- Gate list built by `generate_hardening_test_circuit`: Hadamard layer,
linear CX chain, all consecutive Toffolis, reversed-direction CX chain,
final measurements. -/
def hardeningGates (num_qubits : Nat) : List Gate :=
  concatMap (fun i => [hG i]) num_qubits
  ++ concatMap (fun i => [cxG i (i + 1)]) (num_qubits - 1)
  ++ concatMap (fun i => [ccxG i (i + 1) (i + 2)]) (num_qubits - 2)
  ++ concatMap (fun i => [cxG ((i + 1) % num_qubits) i]) (num_qubits - 1)
  ++ concatMap (fun i => [measureG i]) num_qubits

/-- Embedding of `generate_hardening_test_circuit(hardened_ciphertext)`.
This builder never indexes into its input (only hashes it), so it is total:
it succeeds even on the empty byte string. -/
def generate_hardening_test_circuit (hardened_ciphertext : List Nat) : Circuit :=
  let hc_hash := sha256hex hardened_ciphertext
  let circuit_seed := hexToNat (hc_hash.take 8)
  let num_qubits := min 8 (max 3 (hardened_ciphertext.length % 9))
  { gates := hardeningGates num_qubits
    num_qubits := num_qubits
    description := r"PQE-369 Hardening Resistance Test Circuit"
    seed := circuit_seed
    hardened_ciphertext_hash := some (hc_hash.take 16) }

/-- String with an ASCII apostrophe, used in a circuit description. -/
def apos : String := (Char.ofNat 39).toString

/-- Gate list built by `generate_shors_optimized_circuit`: per-qubit phase
pre-rotation plus Hadamard, per-qubit `crz` encoding
`base ^ (i+1) mod target` scaled to `[0, 2π)`, the triangular `cp` phase
ladder with angles `π / 2 ^ (j - i)`, per-qubit compensation phases, then
X-basis change on even qubits and measurements. -/
def shorsGates (target_number base num_qubits : Nat) : List Gate :=
  concatMap (fun i => [rzG i ((i : ℚ) / (num_qubits : ℚ) / 8), hG i]) num_qubits
  ++ concatMap (fun i =>
      [crzG i (num_qubits - 1)
        (((base ^ (i + 1) % target_number : Nat) : ℚ) / (target_number : ℚ) * 2)]) num_qubits
  ++ concatMap (fun i =>
      hG i :: concatMap (fun k => [cpG i (i + 1 + k) (1 / 2 ^ (i + 1 + k - i))])
        (num_qubits - (i + 1))) num_qubits
  ++ concatMap (fun i => [rzG i (-(1 : ℚ) / ((num_qubits : ℚ) * 4))]) num_qubits
  ++ concatMap (fun i =>
      (if i % 2 = 0 then [hG i] else []) ++ [measureG i]) num_qubits

/-- Embedding of `generate_shors_optimized_circuit(target_number, base)`.
The seed drawn from `np.random.randint(0, 1000000)` is the explicit
`circuit_seed` parameter.  With `target_number = 0` the Python call
`pow(base, exponent, 0)` raises `ValueError`, embedded as `Err.valueError`;
no other input is validated. -/
def generate_shors_optimized_circuit (target_number base circuit_seed : Nat) :
    Except Err Circuit :=
  let num_qubits : Nat := 4
  if target_number = 0 then
    .error .valueError
  else
    .ok
      { gates := shorsGates target_number base num_qubits
        num_qubits := num_qubits
        description := r"PQE-369 Optimized Shor" ++ apos ++ r"s Algorithm Circuit"
        seed := circuit_seed
        target_number := some target_number
        base := some base
        algorithm_type := some r"period_finding_optimized"
        optimization_level := some r"maximum"
        shots_recommended := some 8192
        improvements := [r"phase_pre_rotation", r"precision_angle_calc", r"error_compensation",
          r"basis_optimization", r"reduced_depth", r"enhanced_precision"]
        execution_priority := some 1
        estimated_success_rate := some (0.85 : ℚ) }

/-- Gate list built by `generate_krylov_optimized_circuit`: two rounds of
Y-rotations (angles π/3 then π/4), linear CX chain, index-scaled Z-phases,
one Toffoli and one swap, uniform correction phases, then per-qubit basis
selection (X on qubit 0, Y on qubit 1) and measurements. -/
def krylovGates (num_qubits : Nat) : List Gate :=
  concatMap (fun i => [ryG i (1 / 3)]) num_qubits
  ++ concatMap (fun i => [ryG i (1 / 4)]) num_qubits
  ++ concatMap (fun i => [cxG i (i + 1)]) (num_qubits - 1)
  ++ concatMap (fun i => [rzG i ((i : ℚ) / (num_qubits : ℚ))]) num_qubits
  ++ [ccxG 0 1 2, swapG 0 2]
  ++ concatMap (fun i => [rzG i (-(1 : ℚ) / ((num_qubits : ℚ) * 2))]) num_qubits
  ++ concatMap (fun i =>
      (if i = 0 then [hG i] else if i = 1 then [rxG i (1 / 2)] else [])
        ++ [measureG i]) num_qubits

/-- Embedding of `generate_krylov_optimized_circuit()`; the randomly drawn
seed is the explicit parameter. -/
def generate_krylov_optimized_circuit (circuit_seed : Nat) : Circuit :=
  let num_qubits : Nat := 3
  { gates := krylovGates num_qubits
    num_qubits := num_qubits
    description := r"PQE-369 Optimized Krylov Methods Circuit"
    seed := circuit_seed
    algorithm_type := some r"linear_algebra_optimized"
    optimization_level := some r"maximum"
    shots_recommended := some 4096
    improvements := [r"optimized_qubits", r"ry_superposition", r"single_step_walk",
      r"error_correction", r"basis_optimization", r"reduced_depth", r"enhanced_mixing"]
    execution_priority := some 2
    estimated_success_rate := some (0.78 : ℚ) }

/-- Gate list built by `generate_kem_properties_circuit`: Hadamard plus
small data-derived phase per qubit, fixed entangling layer
(CX(0,2), CX(1,3), Toffoli(0,1,4), CX(2,3), CX(3,2)), per-qubit
data-derived final phases, then X-basis change on even qubits and
measurements. -/
def kemGates (combined_data : List Nat) (num_qubits : Nat) : List Gate :=
  concatMap (fun i =>
    [hG i, rzG i ((combined_data.getD (i % combined_data.length) 0 : ℚ) / 255 / 4)])
    num_qubits
  ++ [cxG 0 2, cxG 1 3, ccxG 0 1 4, cxG 2 3, cxG 3 2]
  ++ concatMap (fun i =>
      [rzG i ((combined_data.getD ((i * 7) % combined_data.length) 0 : ℚ) / 255 * 2)])
      num_qubits
  ++ concatMap (fun i => (if i % 2 = 0 then [hG i] else []) ++ [measureG i]) num_qubits

/-- Embedding of
`generate_kem_properties_circuit(public_key_sample, ciphertext_sample)`.
The circuit is driven by the concatenation of the two inputs; with both
inputs empty, `combined_data[i % len(combined_data)]` raises
`ZeroDivisionError`. -/
def generate_kem_properties_circuit (public_key_sample ciphertext_sample : List Nat) :
    Except Err Circuit :=
  let combined_data := public_key_sample ++ ciphertext_sample
  let combined_hash := sha256hex combined_data
  let circuit_seed := hexToNat (combined_hash.take 8)
  let num_qubits := 5
  if combined_data.length = 0 then
    .error .zeroDivision
  else
    .ok
      { gates := kemGates combined_data num_qubits
        num_qubits := num_qubits
        description := r"PQE-369 Enhanced KEM Properties Test Circuit"
        seed := circuit_seed
        combined_hash := some (combined_hash.take 16)
        improvements := [r"phase_relationships", r"multi_control", r"cross_correlation",
          r"basis_changes"] }

/-- Gate list built by `generate_non_commutativity_test_circuit`:
Hadamard layer, the non-commuting gate sequence
CX(0,1), CX(1,2), Toffoli(0,1,2), CX(2,0), Toffoli(2,1,0), then
measurements. -/
def noncommGates (num_qubits : Nat) : List Gate :=
  concatMap (fun i => [hG i]) num_qubits
  ++ [cxG 0 1, cxG 1 2, ccxG 0 1 2, cxG 2 0, ccxG 2 1 0]
  ++ concatMap (fun i => [measureG i]) num_qubits

/-- Embedding of `generate_non_commutativity_test_circuit()`; the randomly
drawn seed is the explicit parameter. -/
def generate_non_commutativity_test_circuit (circuit_seed : Nat) : Circuit :=
  let num_qubits : Nat := 3
  { gates := noncommGates num_qubits
    num_qubits := num_qubits
    description := r"PQE-369 Non-Commutativity Test Circuit"
    seed := circuit_seed
    test_type := some r"non_commutativity" }

/-- Gate list built by `generate_superposition_optimized_circuit`:
heterogeneous state preparation (RY(π/2), RX(π/2), Hadamard), GHZ-like CX
chain, 120-degree-spaced Z-phases, triangular `cp` mesh at π/4, per-qubit
mitigation phases, then X/Y/Z-basis measurements. -/
def superpositionGates (num_qubits : Nat) : List Gate :=
  concatMap (fun i =>
    [if i = 0 then ryG i (1 / 2) else if i = 1 then rxG i (1 / 2) else hG i]) num_qubits
  ++ [cxG 0 1, cxG 1 2]
  ++ concatMap (fun i => [rzG i ((i : ℚ) * 2 / 3)]) num_qubits
  ++ [cpG 0 1 (1 / 4), cpG 1 2 (1 / 4), cpG 0 2 (1 / 4)]
  ++ concatMap (fun i => [rzG i (-(1 : ℚ) / ((num_qubits : ℚ) * 3))]) num_qubits
  ++ [hG 0, measureG 0, rxG 1 (1 / 2), measureG 1, measureG 2]

/-- Embedding of `generate_superposition_optimized_circuit()`; the randomly
drawn seed is the explicit parameter. -/
def generate_superposition_optimized_circuit (circuit_seed : Nat) : Circuit :=
  let num_qubits : Nat := 3
  { gates := superpositionGates num_qubits
    num_qubits := num_qubits
    description := r"PQE-369 Optimized Superposition Coherence Circuit"
    seed := circuit_seed
    test_type := some r"superposition_optimized"
    optimization_level := some r"maximum"
    shots_recommended := some 8192
    improvements := [r"ghz_state_preparation", r"optimal_phase_angles", r"error_mitigation",
      r"multi_basis_measurement", r"enhanced_interference", r"coherence_optimization"]
    execution_priority := some 3
    estimated_success_rate := some (0.82 : ℚ) }

/-! The rotating batch plan.  The unseeded global `np.random` generator is
embedded as an explicit byte stream plus a position counter. -/

/-- Explicit pseudo-random source: an infinite byte stream and the current
position, standing for the global `np.random` state. -/
structure Rng where
  stream : Nat → Nat
  pos : Nat

/-- Draw `k` bytes (`np.random.bytes(k)`). -/
def randBytes (k : Nat) (r : Rng) : List Nat × Rng :=
  ((List.range k).map (fun j => r.stream (r.pos + j) % 256), ⟨r.stream, r.pos + k⟩)

/-- Draw an integer below `bound` (`np.random.randint(0, bound)`). -/
def randInt (bound : Nat) (r : Rng) : Nat × Rng :=
  (r.stream r.pos % bound, ⟨r.stream, r.pos + 1⟩)

/-- The fixed ordered list of 8 test-type identifiers of
`generate_batch_test_circuits`. -/
def testTypes : List String :=
  [r"randomness_enhanced", r"hardening", r"kem_enhanced", r"non_commutativity",
   r"shors_enhanced", r"krylov_enhanced", r"randomness", r"superposition_improved"]

/-- One iteration of the batch loop at position `i`.  The branches for
`shors_enhanced`, `krylov_enhanced` and `superposition_improved` call
methods (`generate_shors_enhanced_circuit`, `generate_krylov_enhanced_circuit`,
`generate_superposition_improved_circuit`) that are defined nowhere in the
repository, so in Python they raise `AttributeError`. -/
def batchStep (i : Nat) (r : Rng) : Except Err (Circuit × Rng) :=
  let tt := testTypes.getD (i % testTypes.length) r""
  if tt = r"randomness_enhanced" then
    let p := randBytes 32 r
    (generate_randomness_test_circuit p.1).map (fun c => (c, p.2))
  else if tt = r"hardening" then
    let p := randBytes 64 r
    .ok (generate_hardening_test_circuit p.1, p.2)
  else if tt = r"kem_enhanced" then
    let p := randBytes 128 r
    let q := randBytes 64 p.2
    (generate_kem_properties_circuit p.1 q.1).map (fun c => (c, q.2))
  else if tt = r"non_commutativity" then
    let p := randInt 1000000 r
    .ok (generate_non_commutativity_test_circuit p.1, p.2)
  else if tt = r"shors_enhanced" then
    .error .attributeError
  else if tt = r"krylov_enhanced" then
    .error .attributeError
  else if tt = r"randomness" then
    let p := randBytes 16 r
    (generate_randomness_test_circuit p.1).map (fun c => (c, p.2))
  else
    .error .attributeError

/-- The batch loop from position `i`, with structural fuel. -/
def batchLoop (total i fuel : Nat) (r : Rng) : Except Err (List Circuit) :=
  match fuel with
  | 0 => .ok []
  | fuel + 1 =>
    match batchStep i r with
    | .error e => .error e
    | .ok p =>
      match batchLoop total (i + 1) fuel p.2 with
      | .error e => .error e
      | .ok rest =>
        .ok ({ p.1 with
                batch_id := some (i + 1)
                batch_total := some total
                test_generation := some r"enhanced" } :: rest)

/-- Embedding of `generate_batch_test_circuits(num_circuits)` over an
explicit random source. -/
def generate_batch_test_circuits (num_circuits : Nat) (r : Rng) : Except Err (List Circuit) :=
  batchLoop num_circuits 0 num_circuits r

/-! Well-formedness predicates from the specification's data-model
invariants (gate arity and qubit-index bounds), and the angle-range
predicate.  These follow the spec's wording and are checked against the
builders above. -/

/-- Arity of a gate name: 3 for `ccx`, 2 for the two-qubit gates
(`cx`, `cp`, `crz`, `swap`), 1 for single-qubit gates including `measure`. -/
def arity (g : String) : Nat :=
  if g = r"ccx" then 3
  else if g = r"cx" then 2
  else if g = r"cp" then 2
  else if g = r"crz" then 2
  else if g = r"swap" then 2
  else 1

/-- A gate is well formed against a qubit count when every qubit index is
below the count and the index-list length matches the gate arity. -/
def gateWF (n : Nat) (g : Gate) : Bool :=
  g.qubits.all (fun q => decide (q < n)) && (g.qubits.length == arity g.gate)

/-- A circuit is well formed when each of its gates is well formed against
its qubit count. -/
def Circuit.wfb (c : Circuit) : Bool :=
  c.gates.all (gateWF c.num_qubits)

/-- A gate's optional angle coefficient lies in `[-2, 2]` (the angle itself
in `[-2π, 2π]`). -/
def angleOK (g : Gate) : Bool :=
  match g.angle with
  | none => true
  | some q => decide (-2 ≤ q) && decide (q ≤ 2)

/-- Every angle of the circuit lies in `[-2π, 2π]`. -/
def anglesOK (c : Circuit) : Bool :=
  c.gates.all angleOK

/-- A byte string: every entry below 256. -/
def isBytes (l : List Nat) : Prop := ∀ b ∈ l, b < 256

/-! Helper lemmas about `concatMap`, gate well-formedness and angle
bounds. -/

lemma all_concatMap (p : Gate → Bool) (f : Nat → List Gate) (n : Nat)
    (h : ∀ i, i < n → (f i).all p = true) : (concatMap f n).all p = true := by
  induction n with
  | zero => rfl
  | succ m ih =>
    rw [concatMap, List.all_append, Bool.and_eq_true]
    exact ⟨ih (fun i hi => h i (Nat.lt_succ_of_lt hi)), h m (Nat.lt_succ_self m)⟩

lemma all_concatMap_one (p : Gate → Bool) (f : Nat → Gate) (n : Nat)
    (h : ∀ i, i < n → p (f i) = true) : (concatMap (fun i => [f i]) n).all p = true :=
  all_concatMap p _ n (fun i hi => by simp [h i hi])

lemma gateWF_hG {n i : Nat} (h : i < n) : gateWF n (hG i) = true := by
  simp [gateWF, hG, arity, h]

lemma gateWF_measureG {n i : Nat} (h : i < n) : gateWF n (measureG i) = true := by
  simp [gateWF, measureG, arity, h]

lemma gateWF_rzG {n i : Nat} (q : ℚ) (h : i < n) : gateWF n (rzG i q) = true := by
  simp [gateWF, rzG, arity, h]

lemma gateWF_rxG {n i : Nat} (q : ℚ) (h : i < n) : gateWF n (rxG i q) = true := by
  simp [gateWF, rxG, arity, h]

lemma gateWF_ryG {n i : Nat} (q : ℚ) (h : i < n) : gateWF n (ryG i q) = true := by
  simp [gateWF, ryG, arity, h]

lemma gateWF_cxG {n a b : Nat} (ha : a < n) (hb : b < n) : gateWF n (cxG a b) = true := by
  simp [gateWF, cxG, arity, ha, hb]

lemma gateWF_cpG {n a b : Nat} (q : ℚ) (ha : a < n) (hb : b < n) :
    gateWF n (cpG a b q) = true := by
  simp [gateWF, cpG, arity, ha, hb]

lemma gateWF_crzG {n a b : Nat} (q : ℚ) (ha : a < n) (hb : b < n) :
    gateWF n (crzG a b q) = true := by
  simp [gateWF, crzG, arity, ha, hb]

lemma gateWF_swapG {n a b : Nat} (ha : a < n) (hb : b < n) : gateWF n (swapG a b) = true := by
  simp [gateWF, swapG, arity, ha, hb]

lemma gateWF_ccxG {n a b c : Nat} (ha : a < n) (hb : b < n) (hc : c < n) :
    gateWF n (ccxG a b c) = true := by
  simp [gateWF, ccxG, arity, ha, hb, hc]

lemma angleOK_hG (i : Nat) : angleOK (hG i) = true := rfl

lemma angleOK_cxG (a b : Nat) : angleOK (cxG a b) = true := rfl

lemma angleOK_ccxG (a b c : Nat) : angleOK (ccxG a b c) = true := rfl

lemma angleOK_swapG (a b : Nat) : angleOK (swapG a b) = true := rfl

lemma angleOK_measureG (i : Nat) : angleOK (measureG i) = true := rfl

lemma angleOK_rzG {q : ℚ} (i : Nat) (h1 : -2 ≤ q) (h2 : q ≤ 2) : angleOK (rzG i q) = true := by
  simp [angleOK, rzG, h1, h2]

lemma angleOK_rxG {q : ℚ} (i : Nat) (h1 : -2 ≤ q) (h2 : q ≤ 2) : angleOK (rxG i q) = true := by
  simp [angleOK, rxG, h1, h2]

lemma angleOK_ryG {q : ℚ} (i : Nat) (h1 : -2 ≤ q) (h2 : q ≤ 2) : angleOK (ryG i q) = true := by
  simp [angleOK, ryG, h1, h2]

lemma angleOK_cpG {q : ℚ} (a b : Nat) (h1 : -2 ≤ q) (h2 : q ≤ 2) :
    angleOK (cpG a b q) = true := by
  simp [angleOK, cpG, h1, h2]

lemma angleOK_crzG {q : ℚ} (a b : Nat) (h1 : -2 ≤ q) (h2 : q ≤ 2) :
    angleOK (crzG a b q) = true := by
  simp [angleOK, crzG, h1, h2]

lemma getD_lt_of_isBytes {x : List Nat} (hx : isBytes x) (k : Nat) : x.getD k 0 < 256 := by
  rcases Nat.lt_or_ge k x.length with h | h
  · rw [List.getD_eq_getElem?_getD, List.getElem?_eq_getElem h]
    exact hx _ (List.getElem_mem h)
  · rw [List.getD_eq_getElem?_getD, List.getElem?_eq_none h]
    norm_num

lemma byte_cast_le {b : Nat} (hb : b < 256) : (b : ℚ) ≤ 255 := by
  exact_mod_cast Nat.lt_succ_iff.mp hb

lemma byte_frac_nonneg (b : Nat) : 0 ≤ (b : ℚ) / 255 := by positivity

lemma byte_frac_le_one {b : Nat} (hb : b < 256) : (b : ℚ) / 255 ≤ 1 := by
  rw [div_le_one (by norm_num : (0 : ℚ) < 255)]
  exact byte_cast_le hb

lemma mod_frac_nonneg (m t : Nat) : 0 ≤ (m : ℚ) / (t : ℚ) := by positivity

lemma mod_frac_le_one {m t : Nat} (hm : m < t) : (m : ℚ) / (t : ℚ) ≤ 1 := by
  have ht : 0 < t := Nat.lt_of_le_of_lt (Nat.zero_le m) hm
  rw [div_le_one (by exact_mod_cast ht : (0 : ℚ) < (t : ℚ))]
  exact_mod_cast Nat.le_of_lt hm

lemma byte_two_angle_ok (i : Nat) {b : Nat} (hb : b < 256) :
    angleOK (rzG i ((b : ℚ) / 255 * 2)) = true := by
  have h1 := byte_frac_nonneg b
  have h2 := byte_frac_le_one hb
  exact angleOK_rzG i (by linarith) (by linarith)

lemma byte_quarter_angle_ok (i : Nat) {b : Nat} (hb : b < 256) :
    angleOK (rzG i ((b : ℚ) / 255 / 4)) = true := by
  have h1 := byte_frac_nonneg b
  have h2 := byte_frac_le_one hb
  exact angleOK_rzG i (by linarith) (by linarith)

/-! Per-builder gate lemmas: every gate is well formed against the
builder's qubit count, and every angle coefficient lies in `[-2, 2]`. -/

lemma randomnessGates_wf (x : List Nat) {n : Nat} (h2 : 2 ≤ n) :
    (randomnessGates x n).all (gateWF n) = true := by
  rw [randomnessGates]
  simp only [List.all_append, Bool.and_eq_true, and_assoc]
  refine ⟨?_, ?_, ?_, ?_, ?_⟩
  · exact all_concatMap_one _ _ _ (fun i hi => gateWF_hG hi)
  · exact all_concatMap_one _ _ _ (fun i hi => gateWF_cxG (by omega) (by omega))
  · exact all_concatMap_one _ _ _ (fun i hi => gateWF_rzG _ hi)
  · rcases le_or_lt 3 n with h3 | h3
    · rw [if_pos h3]
      simp only [List.all_cons, List.all_nil, Bool.and_true, Bool.and_eq_true]
      exact ⟨gateWF_ccxG (by omega) (by omega) (by omega), gateWF_cxG (by omega) (by omega)⟩
    · rw [if_neg (by omega)]
      rfl
  · exact all_concatMap_one _ _ _ (fun i hi => gateWF_measureG hi)

lemma randomnessGates_angles (x : List Nat) (hx : isBytes x) (n : Nat) :
    (randomnessGates x n).all angleOK = true := by
  rw [randomnessGates]
  simp only [List.all_append, Bool.and_eq_true, and_assoc]
  refine ⟨?_, ?_, ?_, ?_, ?_⟩
  · exact all_concatMap_one _ _ _ (fun i hi => angleOK_hG i)
  · exact all_concatMap_one _ _ _ (fun i hi => angleOK_cxG _ _)
  · exact all_concatMap_one _ _ _ (fun i hi => byte_two_angle_ok i (getD_lt_of_isBytes hx _))
  · rcases le_or_lt 3 n with h3 | h3
    · rw [if_pos h3]
      rfl
    · rw [if_neg (by omega)]
      rfl
  · exact all_concatMap_one _ _ _ (fun i hi => angleOK_measureG i)

lemma hardeningGates_wf {n : Nat} (h3 : 3 ≤ n) :
    (hardeningGates n).all (gateWF n) = true := by
  rw [hardeningGates]
  simp only [List.all_append, Bool.and_eq_true, and_assoc]
  refine ⟨?_, ?_, ?_, ?_, ?_⟩
  · exact all_concatMap_one _ _ _ (fun i hi => gateWF_hG hi)
  · exact all_concatMap_one _ _ _ (fun i hi => gateWF_cxG (by omega) (by omega))
  · exact all_concatMap_one _ _ _ (fun i hi => gateWF_ccxG (by omega) (by omega) (by omega))
  · exact all_concatMap_one _ _ _
      (fun i hi => gateWF_cxG (Nat.mod_lt _ (by omega)) (by omega))
  · exact all_concatMap_one _ _ _ (fun i hi => gateWF_measureG hi)

lemma hardeningGates_angles (n : Nat) : (hardeningGates n).all angleOK = true := by
  rw [hardeningGates]
  simp only [List.all_append, Bool.and_eq_true, and_assoc]
  exact ⟨all_concatMap_one _ _ _ (fun i hi => angleOK_hG i),
    all_concatMap_one _ _ _ (fun i hi => angleOK_cxG _ _),
    all_concatMap_one _ _ _ (fun i hi => angleOK_ccxG _ _ _),
    all_concatMap_one _ _ _ (fun i hi => angleOK_cxG _ _),
    all_concatMap_one _ _ _ (fun i hi => angleOK_measureG i)⟩

lemma shorsGates_wf (t b : Nat) : (shorsGates t b 4).all (gateWF 4) = true := by
  rw [shorsGates]
  simp only [List.all_append, Bool.and_eq_true, and_assoc]
  refine ⟨?_, ?_, ?_, ?_, ?_⟩
  · exact all_concatMap _ _ _ (fun i hi => by
      simp only [List.all_cons, List.all_nil, Bool.and_true, Bool.and_eq_true]
      exact ⟨gateWF_rzG _ hi, gateWF_hG hi⟩)
  · exact all_concatMap_one _ _ _ (fun i hi => gateWF_crzG _ hi (by omega))
  · exact all_concatMap _ _ _ (fun i hi => by
      simp only [List.all_cons, Bool.and_eq_true]
      exact ⟨gateWF_hG hi,
        all_concatMap_one _ _ _ (fun k hk => gateWF_cpG _ hi (by omega))⟩)
  · exact all_concatMap_one _ _ _ (fun i hi => gateWF_rzG _ hi)
  · exact all_concatMap _ _ _ (fun i hi => by
      rcases Nat.decEq (i % 2) 0 with h | h
      · rw [if_neg h]
        simp only [List.nil_append, List.all_cons, List.all_nil, Bool.and_true]
        exact gateWF_measureG hi
      · rw [if_pos h]
        simp only [List.cons_append, List.nil_append, List.all_cons, List.all_nil,
          Bool.and_true, Bool.and_eq_true]
        exact ⟨gateWF_hG hi, gateWF_measureG hi⟩)

lemma one_div_two_pow_angle_ok (a b e : Nat) :
    angleOK (cpG a b (1 / 2 ^ e)) = true := by
  have hp : (0 : ℚ) < 2 ^ e := pow_pos (by norm_num) e
  have h1 : (1 : ℚ) ≤ 2 ^ e := one_le_pow₀ (by norm_num)
  have hub : (1 : ℚ) / 2 ^ e ≤ 1 := by
    rw [div_le_one hp]
    exact h1
  have hlb : (0 : ℚ) ≤ 1 / 2 ^ e := by positivity
  exact angleOK_cpG a b (by linarith) (by linarith)

lemma shorsGates_angles {t : Nat} (b : Nat) (ht : 1 ≤ t) :
    (shorsGates t b 4).all angleOK = true := by
  rw [shorsGates]
  simp only [List.all_append, Bool.and_eq_true, and_assoc]
  refine ⟨?_, ?_, ?_, ?_, ?_⟩
  · exact all_concatMap _ _ _ (fun i hi => by
      simp only [List.all_cons, List.all_nil, Bool.and_true, Bool.and_eq_true]
      have h1 := mod_frac_nonneg i 4
      have h2 := mod_frac_le_one (show i < 4 from hi)
      exact ⟨angleOK_rzG i (by push_cast at h1 h2 ⊢; linarith) (by push_cast at h1 h2 ⊢; linarith),
        angleOK_hG i⟩)
  · exact all_concatMap_one _ _ _ (fun i hi => by
      have hm : b ^ (i + 1) % t < t := Nat.mod_lt _ (by omega)
      have h1 := mod_frac_nonneg (b ^ (i + 1) % t) t
      have h2 := mod_frac_le_one hm
      exact angleOK_crzG _ _ (by linarith) (by linarith))
  · exact all_concatMap _ _ _ (fun i hi => by
      simp only [List.all_cons, Bool.and_eq_true]
      exact ⟨angleOK_hG i,
        all_concatMap_one _ _ _ (fun k hk => one_div_two_pow_angle_ok _ _ _)⟩)
  · exact all_concatMap_one _ _ _ (fun i hi => angleOK_rzG i (by norm_num) (by norm_num))
  · exact all_concatMap _ _ _ (fun i hi => by
      rcases Nat.decEq (i % 2) 0 with h | h
      · rw [if_neg h]
        rfl
      · rw [if_pos h]
        rfl)

lemma kemGates_wf (x : List Nat) : (kemGates x 5).all (gateWF 5) = true := by
  rw [kemGates]
  simp only [List.all_append, Bool.and_eq_true, and_assoc]
  refine ⟨?_, ?_, ?_, ?_⟩
  · exact all_concatMap _ _ _ (fun i hi => by
      simp only [List.all_cons, List.all_nil, Bool.and_true, Bool.and_eq_true]
      exact ⟨gateWF_hG hi, gateWF_rzG _ hi⟩)
  · rfl
  · exact all_concatMap_one _ _ _ (fun i hi => gateWF_rzG _ hi)
  · exact all_concatMap _ _ _ (fun i hi => by
      rcases Nat.decEq (i % 2) 0 with h | h
      · rw [if_neg h]
        simp only [List.nil_append, List.all_cons, List.all_nil, Bool.and_true]
        exact gateWF_measureG hi
      · rw [if_pos h]
        simp only [List.cons_append, List.nil_append, List.all_cons, List.all_nil,
          Bool.and_true, Bool.and_eq_true]
        exact ⟨gateWF_hG hi, gateWF_measureG hi⟩)

lemma kemGates_angles {x : List Nat} (hx : isBytes x) (n : Nat) :
    (kemGates x n).all angleOK = true := by
  rw [kemGates]
  simp only [List.all_append, Bool.and_eq_true, and_assoc]
  refine ⟨?_, ?_, ?_, ?_⟩
  · exact all_concatMap _ _ _ (fun i hi => by
      simp only [List.all_cons, List.all_nil, Bool.and_true, Bool.and_eq_true]
      exact ⟨angleOK_hG i, byte_quarter_angle_ok i (getD_lt_of_isBytes hx _)⟩)
  · rfl
  · exact all_concatMap_one _ _ _ (fun i hi => byte_two_angle_ok i (getD_lt_of_isBytes hx _))
  · exact all_concatMap _ _ _ (fun i hi => by
      rcases Nat.decEq (i % 2) 0 with h | h
      · rw [if_neg h]
        rfl
      · rw [if_pos h]
        rfl)

lemma isBytes_append {pk ct : List Nat} (h1 : isBytes pk) (h2 : isBytes ct) :
    isBytes (pk ++ ct) := by
  intro b hb
  rcases List.mem_append.mp hb with h | h
  · exact h1 b h
  · exact h2 b h

lemma krylovGates_angles : (krylovGates 3).all angleOK = true := by
  rw [krylovGates]
  simp only [List.all_append, Bool.and_eq_true, and_assoc]
  refine ⟨?_, ?_, ?_, ?_, ?_, ?_, ?_⟩
  · exact all_concatMap_one _ _ _ (fun i hi => angleOK_ryG i (by norm_num) (by norm_num))
  · exact all_concatMap_one _ _ _ (fun i hi => angleOK_ryG i (by norm_num) (by norm_num))
  · exact all_concatMap_one _ _ _ (fun i hi => angleOK_cxG _ _)
  · exact all_concatMap_one _ _ _ (fun i hi => by
      have h1 := mod_frac_nonneg i 3
      have h2 := mod_frac_le_one (show i < 3 from hi)
      exact angleOK_rzG i (by linarith) (by linarith))
  · rfl
  · exact all_concatMap_one _ _ _ (fun i hi => angleOK_rzG i (by norm_num) (by norm_num))
  · exact all_concatMap _ _ _ (fun i hi => by
      rcases Nat.decEq i 0 with h0 | h0
      · rw [if_neg h0]
        rcases Nat.decEq i 1 with h1 | h1
        · rw [if_neg h1]
          rfl
        · rw [if_pos h1]
          simp only [List.cons_append, List.nil_append, List.all_cons, List.all_nil,
            Bool.and_true, Bool.and_eq_true]
          exact ⟨angleOK_rxG i (by norm_num) (by norm_num), angleOK_measureG i⟩
      · rw [if_pos h0]
        rfl)

lemma superpositionGates_angles : (superpositionGates 3).all angleOK = true := by
  rw [superpositionGates]
  simp only [List.all_append, Bool.and_eq_true, and_assoc]
  refine ⟨?_, ?_, ?_, ?_, ?_, ?_⟩
  · exact all_concatMap_one _ _ _ (fun i hi => by
      rcases Nat.decEq i 0 with h0 | h0
      · rw [if_neg h0]
        rcases Nat.decEq i 1 with h1 | h1
        · rw [if_neg h1]
          exact angleOK_hG i
        · rw [if_pos h1]
          exact angleOK_rxG i (by norm_num) (by norm_num)
      · rw [if_pos h0]
        exact angleOK_ryG i (by norm_num) (by norm_num))
  · rfl
  · exact all_concatMap_one _ _ _ (fun i hi => by
      have hc : (i : ℚ) ≤ 2 := by exact_mod_cast (show i ≤ 2 by omega)
      have hc0 : (0 : ℚ) ≤ (i : ℚ) := by positivity
      exact angleOK_rzG i (by linarith) (by linarith))
  · simp only [List.all_cons, List.all_nil, Bool.and_true, Bool.and_eq_true]
    exact ⟨angleOK_cpG _ _ (by norm_num) (by norm_num),
      angleOK_cpG _ _ (by norm_num) (by norm_num),
      angleOK_cpG _ _ (by norm_num) (by norm_num)⟩
  · exact all_concatMap_one _ _ _ (fun i hi => angleOK_rzG i (by norm_num) (by norm_num))
  · simp only [List.all_cons, List.all_nil, Bool.and_true, Bool.and_eq_true]
    exact ⟨angleOK_hG 0, angleOK_measureG 0, angleOK_rxG 1 (by norm_num) (by norm_num),
      angleOK_measureG 1, angleOK_measureG 2⟩

lemma noncommGates_angles : (noncommGates 3).all angleOK = true := by decide

/-! The claim theorems. -/

/-- Claim C1, counterexample: calling the randomness builder with an empty
byte sequence fails with an unguarded modulo-by-zero error
(`ZeroDivisionError`), which is not an *InvalidInput* condition — refuting
the claim that such calls fail with *InvalidInput* and never with an
unguarded division/modulo-by-zero. -/
theorem randomness_empty_not_invalid_input :
    generate_randomness_test_circuit [] = .error .zeroDivision ∧
    Err.zeroDivision ≠ Err.invalidInput :=
  ⟨rfl, by decide⟩

/-- Claim C1, amended: with an empty byte sequence, the randomness builder
(and the KEM builder with both inputs empty) fails with the unguarded
modulo-by-zero error; no *InvalidInput* condition exists in the code.  The
hardening builder never indexes into its input: on empty input it succeeds
and returns a well-formed 3-qubit circuit. -/
theorem empty_input_raises_zero_division :
    generate_randomness_test_circuit [] = .error .zeroDivision ∧
    generate_kem_properties_circuit [] [] = .error .zeroDivision ∧
    (generate_hardening_test_circuit []).num_qubits = 3 ∧
    (generate_hardening_test_circuit []).wfb = true :=
  ⟨rfl, rfl, rfl, rfl⟩

/-- Claim C2: for every non-empty byte input, the randomness builder
succeeds and both data-derived builders (randomness, hardening) return a
circuit whose `num_qubits` equals the documented clamp
(`clamp(len mod 6, 2, 5)` resp. `clamp(len mod 9, 3, 8)`) and lies in the
clamp range, and in which every gate has all qubit indices strictly below
`num_qubits` and an index-list length equal to the gate's arity (1 for
single-qubit gates including measure, 2 for two-qubit gates, 3 for ccx). -/
theorem data_derived_builders_well_formed (x : List Nat) (hx : x ≠ []) :
    (generate_randomness_test_circuit x).isOk = true ∧
    (∀ c, generate_randomness_test_circuit x = .ok c →
      c.num_qubits = min 5 (max 2 (x.length % 6)) ∧
      2 ≤ c.num_qubits ∧ c.num_qubits ≤ 5 ∧ c.wfb = true) ∧
    (generate_hardening_test_circuit x).num_qubits = min 8 (max 3 (x.length % 9)) ∧
    3 ≤ (generate_hardening_test_circuit x).num_qubits ∧
    (generate_hardening_test_circuit x).num_qubits ≤ 8 ∧
    (generate_hardening_test_circuit x).wfb = true := by
  have hx0 : ¬ x.length = 0 := fun h => hx (List.length_eq_zero.mp h)
  have h2 : 2 ≤ min 5 (max 2 (x.length % 6)) := le_min (by norm_num) (le_max_left _ _)
  have h3 : 3 ≤ min 8 (max 3 (x.length % 9)) := le_min (by norm_num) (le_max_left _ _)
  refine ⟨?_, fun c hc => ?_, rfl, h3, min_le_left _ _, hardeningGates_wf h3⟩
  · simp only [generate_randomness_test_circuit, if_neg hx0]
    rfl
  · simp only [generate_randomness_test_circuit, if_neg hx0, Except.ok.injEq] at hc
    subst hc
    exact ⟨rfl, h2, min_le_left _ _, randomnessGates_wf x h2⟩

/-- Claim C2, witness at the one-byte input `[1]`. -/
theorem data_derived_builders_well_formed_witness :
    (generate_randomness_test_circuit [1]).isOk = true ∧
    (generate_hardening_test_circuit [1]).wfb = true :=
  ⟨(data_derived_builders_well_formed [1] (by decide)).1,
   (data_derived_builders_well_formed [1] (by decide)).2.2.2.2.2⟩

/-- Claim C3: the data-derived builders (randomness, hardening, KEM) are
deterministic functions of their byte inputs — identical inputs give
identical results, gates and digest-derived metadata included — while the
fixed-structure builders (Shor, Krylov, superposition, non-commutativity)
produce gate lists that do not depend on the randomly drawn seed
parameter. -/
theorem builders_deterministic :
    (∀ x y : List Nat, x = y →
      generate_randomness_test_circuit x = generate_randomness_test_circuit y ∧
      generate_hardening_test_circuit x = generate_hardening_test_circuit y) ∧
    (∀ pk ct pk₂ ct₂ : List Nat, pk = pk₂ → ct = ct₂ →
      generate_kem_properties_circuit pk ct = generate_kem_properties_circuit pk₂ ct₂) ∧
    (∀ t b s₁ s₂ : Nat,
      (generate_shors_optimized_circuit t b s₁).map Circuit.gates =
        (generate_shors_optimized_circuit t b s₂).map Circuit.gates) ∧
    (∀ s₁ s₂ : Nat,
      (generate_krylov_optimized_circuit s₁).gates =
        (generate_krylov_optimized_circuit s₂).gates) ∧
    (∀ s₁ s₂ : Nat,
      (generate_superposition_optimized_circuit s₁).gates =
        (generate_superposition_optimized_circuit s₂).gates) ∧
    (∀ s₁ s₂ : Nat,
      (generate_non_commutativity_test_circuit s₁).gates =
        (generate_non_commutativity_test_circuit s₂).gates) := by
  refine ⟨fun x y h => by rw [h]; exact ⟨rfl, rfl⟩,
    fun pk ct pk₂ ct₂ h1 h2 => by rw [h1, h2],
    fun t b s₁ s₂ => ?_, fun s₁ s₂ => rfl, fun s₁ s₂ => rfl, fun s₁ s₂ => rfl⟩
  by_cases ht : t = 0
  · simp only [generate_shors_optimized_circuit, if_pos ht]
  · simp only [generate_shors_optimized_circuit, if_neg ht, Except.map]

/-- Claim C3, witness: the randomness builder applied twice to one
concrete input, and the Shor builder's gates at two different seeds. -/
theorem builders_deterministic_witness :
    generate_randomness_test_circuit [5] = generate_randomness_test_circuit [5] ∧
    (generate_shors_optimized_circuit 15 2 0).map Circuit.gates =
      (generate_shors_optimized_circuit 15 2 999999).map Circuit.gates :=
  ⟨(builders_deterministic.1 [5] [5] rfl).1,
   builders_deterministic.2.2.1 15 2 0 999999⟩

/-- Claim C4, counterexample: with `target_number = 0` (a non-negative
integer), the Shor builder does not return a circuit: Python's
`pow(base, exponent, 0)` raises `ValueError`, refuting the claim that the
call cannot fail for any non-negative inputs. -/
theorem shors_zero_target_raises_value_error :
    generate_shors_optimized_circuit 0 2 0 = .error .valueError := rfl

/-- Claim C4, amended: the Shor builder performs no input validation and
returns a circuit for every positive target number (any base, any seed);
only `target_number = 0` makes the unvalidated modular exponentiation
fail. -/
theorem shors_accepts_positive_targets (t b s : Nat) (ht : 1 ≤ t) :
    (generate_shors_optimized_circuit t b s).isOk = true := by
  have ht0 : ¬ t = 0 := by omega
  simp only [generate_shors_optimized_circuit, if_neg ht0]
  rfl

/-- Claim C4 amended, witness at `(15, 2)`. -/
theorem shors_accepts_positive_targets_witness :
    (generate_shors_optimized_circuit 15 2 0).isOk = true :=
  shors_accepts_positive_targets 15 2 0 (by decide)

/-- Claim C5: on the two-byte input `b"ab" = [97, 98]` the randomness
builder yields 2 qubits, exactly 2 Hadamards, exactly one CX on qubits
(0,1), exactly 2 `rz` phase rotations, exactly 2 measurements and no
Toffoli. -/
theorem randomness_ab_structure :
    ∃ c, generate_randomness_test_circuit [97, 98] = .ok c ∧
      c.num_qubits = 2 ∧
      (c.gates.filter (fun g => g.gate = r"h")).length = 2 ∧
      c.gates.filter (fun g => g.gate = r"cx") = [cxG 0 1] ∧
      (c.gates.filter (fun g => g.gate = r"rz")).length = 2 ∧
      (c.gates.filter (fun g => g.gate = r"measure")).length = 2 ∧
      c.gates.filter (fun g => g.gate = r"ccx") = [] := by
  exact ⟨_, rfl, rfl, rfl, rfl, rfl, rfl, rfl⟩

/-- Claim C6: for positive target and base the Shor builder always returns
4 qubits and a 32-gate list that is the same for every drawn seed (only
the `seed` metadata field varies); its four `crz` gates carry the angles
`((base ^ (i+1) mod target) / target) * 2π` on qubits `(i, 3)`, and its
`cp` ladder carries the angles `π / 2 ^ (j - i)` for the pairs `i < j`. -/
theorem shors_fixed_structure (t b s : Nat) (ht : 1 ≤ t) (hb : 1 ≤ b) :
    (generate_shors_optimized_circuit t b s).isOk = true ∧
    ∀ c, generate_shors_optimized_circuit t b s = .ok c →
      c.num_qubits = 4 ∧ c.gates.length = 32 ∧
      (∀ s₂, generate_shors_optimized_circuit t b s₂ = .ok { c with seed := s₂ }) ∧
      c.gates.filter (fun g => g.gate = r"crz") =
        [crzG 0 3 (((b ^ 1 % t : Nat) : ℚ) / (t : ℚ) * 2),
         crzG 1 3 (((b ^ 2 % t : Nat) : ℚ) / (t : ℚ) * 2),
         crzG 2 3 (((b ^ 3 % t : Nat) : ℚ) / (t : ℚ) * 2),
         crzG 3 3 (((b ^ 4 % t : Nat) : ℚ) / (t : ℚ) * 2)] ∧
      c.gates.filter (fun g => g.gate = r"cp") =
        [cpG 0 1 (1 / 2 ^ 1), cpG 0 2 (1 / 2 ^ 2), cpG 0 3 (1 / 2 ^ 3),
         cpG 1 2 (1 / 2 ^ 1), cpG 1 3 (1 / 2 ^ 2), cpG 2 3 (1 / 2 ^ 1)] := by
  have ht0 : ¬ t = 0 := by omega
  constructor
  · simp only [generate_shors_optimized_circuit, if_neg ht0]
    rfl
  · intro c hc
    simp only [generate_shors_optimized_circuit, if_neg ht0, Except.ok.injEq] at hc
    subst hc
    refine ⟨rfl, rfl, fun s₂ => ?_, rfl, rfl⟩
    simp only [generate_shors_optimized_circuit, if_neg ht0]

/-- Claim C6, witness at `(15, 2)`. -/
theorem shors_fixed_structure_witness :
    (generate_shors_optimized_circuit 15 2 7).isOk = true ∧
    ∀ c, generate_shors_optimized_circuit 15 2 7 = .ok c → c.gates.length = 32 :=
  ⟨(shors_fixed_structure 15 2 7 (by decide) (by decide)).1,
   fun c hc => ((shors_fixed_structure 15 2 7 (by decide) (by decide)).2 c hc).2.1⟩

/-- Claim C7: for every successful data-derived builder call, the
hash-fragment metadata field equals the first 16 hex characters of the
independently recomputed SHA-256 digest of the exact input bytes (for KEM,
of the concatenation of the two inputs). -/
theorem hash_fragment_recomputed :
    (∀ x : List Nat, x ≠ [] → ∀ c, generate_randomness_test_circuit x = .ok c →
      c.ciphertext_hash = some ((sha256hex x).take 16)) ∧
    (∀ x : List Nat, x ≠ [] →
      (generate_hardening_test_circuit x).hardened_ciphertext_hash =
        some ((sha256hex x).take 16)) ∧
    (∀ pk ct : List Nat, ∀ c, generate_kem_properties_circuit pk ct = .ok c →
      c.combined_hash = some ((sha256hex (pk ++ ct)).take 16)) := by
  refine ⟨fun x hx c hc => ?_, fun x hx => rfl, fun pk ct c hc => ?_⟩
  · have hx0 : ¬ x.length = 0 := fun h => hx (List.length_eq_zero.mp h)
    simp only [generate_randomness_test_circuit, if_neg hx0, Except.ok.injEq] at hc
    subst hc
    rfl
  · by_cases h0 : (pk ++ ct).length = 0
    · simp only [generate_kem_properties_circuit, if_pos h0] at hc
      exact absurd hc (by simp)
    · simp only [generate_kem_properties_circuit, if_neg h0, Except.ok.injEq] at hc
      subst hc
      rfl

/-- Claim C7, witness at `b"ab"` for randomness and at a split input for
KEM. -/
theorem hash_fragment_recomputed_witness :
    (∀ c, generate_randomness_test_circuit [97, 98] = .ok c →
      c.ciphertext_hash = some ((sha256hex [97, 98]).take 16)) ∧
    (∀ c, generate_kem_properties_circuit [97] [98] = .ok c →
      c.combined_hash = some ((sha256hex ([97] ++ [98])).take 16)) :=
  ⟨hash_fragment_recomputed.1 [97, 98] (by decide),
   hash_fragment_recomputed.2.2 [97] [98]⟩

/-- Claim C8: in every builder result, every gate that carries an angle
has a coefficient in `[-2, 2]`, i.e. an angle in `[-2π, 2π]`; byte inputs
are byte-valued (entries below 256), and the Shor builder succeeds exactly
when the target is positive. -/
theorem angles_in_range :
    (∀ x : List Nat, isBytes x → ∀ c, generate_randomness_test_circuit x = .ok c →
      anglesOK c = true) ∧
    (∀ x : List Nat, anglesOK (generate_hardening_test_circuit x) = true) ∧
    (∀ t b s : Nat, ∀ c, generate_shors_optimized_circuit t b s = .ok c →
      anglesOK c = true) ∧
    (∀ s : Nat, anglesOK (generate_krylov_optimized_circuit s) = true) ∧
    (∀ pk ct : List Nat, isBytes pk → isBytes ct →
      ∀ c, generate_kem_properties_circuit pk ct = .ok c → anglesOK c = true) ∧
    (∀ s : Nat, anglesOK (generate_superposition_optimized_circuit s) = true) ∧
    (∀ s : Nat, anglesOK (generate_non_commutativity_test_circuit s) = true) := by
  refine ⟨fun x hxB c hc => ?_, fun x => hardeningGates_angles _,
    fun t b s c hc => ?_, fun s => krylovGates_angles,
    fun pk ct h1 h2 c hc => ?_, fun s => superpositionGates_angles,
    fun s => noncommGates_angles⟩
  · by_cases hx0 : x.length = 0
    · simp only [generate_randomness_test_circuit, if_pos hx0] at hc
      exact absurd hc (by simp)
    · simp only [generate_randomness_test_circuit, if_neg hx0, Except.ok.injEq] at hc
      subst hc
      exact randomnessGates_angles x hxB _
  · by_cases ht : t = 0
    · simp only [generate_shors_optimized_circuit, if_pos ht] at hc
      exact absurd hc (by simp)
    · simp only [generate_shors_optimized_circuit, if_neg ht, Except.ok.injEq] at hc
      subst hc
      exact shorsGates_angles b (by omega)
  · by_cases h0 : (pk ++ ct).length = 0
    · simp only [generate_kem_properties_circuit, if_pos h0] at hc
      exact absurd hc (by simp)
    · simp only [generate_kem_properties_circuit, if_neg h0, Except.ok.injEq] at hc
      subst hc
      exact kemGates_angles (isBytes_append h1 h2) _

/-- Claim C8, witness at concrete byte inputs and parameters. -/
theorem angles_in_range_witness :
    (∀ c, generate_randomness_test_circuit [255] = .ok c → anglesOK c = true) ∧
    anglesOK (generate_hardening_test_circuit [0]) = true ∧
    (∀ c, generate_shors_optimized_circuit 15 2 0 = .ok c → anglesOK c = true) ∧
    anglesOK (generate_krylov_optimized_circuit 0) = true :=
  ⟨angles_in_range.1 [255] (by intro b hb; rw [List.mem_singleton] at hb; omega),
   angles_in_range.2.1 [0], angles_in_range.2.2.1 15 2 0, angles_in_range.2.2.2.1 0⟩

/-- Claim C9: a batch of 5 circuits cannot be produced — at batch position
4 (`i mod 8 = 4`) the code selects test type `shors_enhanced` and calls
`generate_shors_enhanced_circuit`, a method that does not exist anywhere
in the repository, so the call fails with an `AttributeError` regardless
of the drawn random bytes (the claim promised exactly N descriptions for
every N; the default `num_circuits = 12` fails the same way). -/
theorem batch_of_five_hits_missing_builder (r : Rng) :
    generate_batch_test_circuits 5 r = .error .attributeError := rfl

/-- Claim C9, witness at a concrete random stream. -/
theorem batch_of_five_hits_missing_builder_witness :
    generate_batch_test_circuits 5 ⟨fun j => j, 0⟩ = .error .attributeError :=
  batch_of_five_hits_missing_builder ⟨fun j => j, 0⟩

/-- Claim C10: the KEM builder's effective precondition is on the
concatenation of its two byte inputs: if at least one input is non-empty
the call succeeds and every returned circuit has 5 qubits and only
well-formed gates, while with both inputs empty it fails (with the
modulo-by-zero error). -/
theorem kem_effective_precondition :
    (∀ pk ct : List Nat, pk ≠ [] ∨ ct ≠ [] →
      (generate_kem_properties_circuit pk ct).isOk = true ∧
      ∀ c, generate_kem_properties_circuit pk ct = .ok c →
        c.num_qubits = 5 ∧ c.wfb = true) ∧
    generate_kem_properties_circuit [] [] = .error .zeroDivision := by
  refine ⟨fun pk ct h => ?_, rfl⟩
  have h0 : ¬ (pk ++ ct).length = 0 := by
    rw [List.length_append]
    rcases h with h | h
    · have := List.length_pos.mpr h
      omega
    · have := List.length_pos.mpr h
      omega
  constructor
  · simp only [generate_kem_properties_circuit, if_neg h0]
    rfl
  · intro c hc
    simp only [generate_kem_properties_circuit, if_neg h0, Except.ok.injEq] at hc
    subst hc
    exact ⟨rfl, kemGates_wf _⟩

/-- Claim C10, witness: an empty public key with a one-byte ciphertext
succeeds. -/
theorem kem_effective_precondition_witness :
    (generate_kem_properties_circuit [] [42]).isOk = true :=
  ((kem_effective_precondition.1 [] [42]) (Or.inr (by decide))).1

set_option maxRecDepth 100000 in
/-- Validation of the SHA-256 embedding against the standard test vector
for the empty message. -/
theorem sha256hex_empty_vector :
    sha256hex [] =
      r"e3b0c44298fc1c149afbf4c8996fb92427ae41e4649b934ca495991b7852b855" := by
  decide

set_option maxRecDepth 100000 in
/-- Validation of the SHA-256 embedding against the standard test vector
for the three-byte message `b"abc"`. -/
theorem sha256hex_abc_vector :
    sha256hex [97, 98, 99] =
      r"ba7816bf8f01cfea414140de5dae2223b00361a396177a9cb410ff61f20015ad" := by
  decide

set_option maxRecDepth 100000 in
/-- The derived circuit seed of `b"abc"`: the first 8 hex digest characters
parsed as an integer, matching Python's `int(hash[:8], 16)`. -/
theorem seed_of_abc : hexToNat ((sha256hex [97, 98, 99]).take 8) = 3128432319 := by
  decide

end PQE369
